import Mathlib

/-!
Verification development for the luaSGF repository (OneLuaPro/luaSGF).

The repository's single source file, `src/luaSGF.c`, is the Lua binding of a
Savitzky-Golay filter engine.  The numerical core (`savgol_create`,
`savgol_apply`, `savgol_apply_valid`, `savgol_destroy`, `mes_savgolFilter`)
lives in an external library (`savgolFilter.h`) that is not part of the
repository sources, so those functions are modelled from the specification,
as marked in their doc comments.  Everything else (argument handling,
validation, table marshalling, lifecycle, memory handling of the binding) is
translated directly from `src/luaSGF.c`.

Conventions of the embedding:
* Lua numbers are modelled as exact fractions of integers (`Frac`, numerator
  and denominator, without normalization); the spec treats samples as real
  numbers and every claim under study is independent of the number
  representation (lengths, error paths, and identities between expressions
  that are built by the very same arithmetic on both sides).
* `uint8_t` casts in the C source are modelled by `toUInt8`, i.e. reduction
  modulo 256 of the (signed) Lua integer.
* A raised Lua error (`luaL_error`, `luaL_argcheck`, `luaL_checknumber`,
  `luaL_checkinteger`, `luaL_checktype`) is modelled as an `Except.error` /
  `CalcOutcome.abort` value.
-/

namespace LuaSGF

/-! ## Exact fractions

The sample type of the embedding: a fraction of two integers.  Arithmetic is
the textbook fraction arithmetic without normalization, so that every
operation is a plain structural computation. -/

/-- An exact fraction: numerator over denominator.  All fractions produced
by the model have a nonzero denominator. -/
structure Frac where
  num : ℤ
  den : ℤ
  deriving DecidableEq, Repr

instance : Zero Frac := ⟨⟨0, 1⟩⟩

instance : One Frac := ⟨⟨1, 1⟩⟩

instance (n : Nat) : OfNat Frac n := ⟨⟨(n : ℤ), 1⟩⟩

instance : NatCast Frac := ⟨fun n => ⟨(n : ℤ), 1⟩⟩

instance : IntCast Frac := ⟨fun z => ⟨z, 1⟩⟩

instance : Add Frac := ⟨fun a b => ⟨a.num * b.den + b.num * a.den, a.den * b.den⟩⟩

instance : Sub Frac := ⟨fun a b => ⟨a.num * b.den - b.num * a.den, a.den * b.den⟩⟩

instance : Neg Frac := ⟨fun a => ⟨-a.num, a.den⟩⟩

instance : Mul Frac := ⟨fun a b => ⟨a.num * b.num, a.den * b.den⟩⟩

instance : Div Frac := ⟨fun a b => ⟨a.num * b.den, a.den * b.num⟩⟩

/-- Power with a natural exponent (`x ^ 0 = 1`, also for `x = 0`). -/
def Frac.pow (a : Frac) : Nat → Frac
  | 0 => 1
  | n + 1 => a * Frac.pow a n

instance : Pow Frac Nat := ⟨Frac.pow⟩

/-- Value-level comparison of fractions (cross-multiplied, sign-correct for
any nonzero denominators). -/
instance : LT Frac :=
  ⟨fun a b => a.num * a.den * (b.den * b.den) < b.num * b.den * (a.den * a.den)⟩

instance (a b : Frac) : Decidable (a < b) :=
  inferInstanceAs (Decidable (a.num * a.den * (b.den * b.den) <
    b.num * b.den * (a.den * a.den)))

/-! ## Integer linear algebra used by the coefficient solver

The design matrix has integer entries (powers of integer offsets), so the
Gram matrix `AᵀA` of the normal equations is an integer matrix and the
normal equations can be solved exactly by Cramer's rule: each entry of the
pseudo-inverse is a quotient of two integer determinants.  This makes the
success condition of the solver transparent: it fails exactly when the Gram
determinant is zero, which `detZ_gramZ_ne_zero` below proves impossible for
`m ≤ 2n` — the spec's guarantee (§4.1) that the normal equations are
nonsingular for a valid configuration. -/

/-- The sample offset of window position `i`: `k = i − n`. -/
def offsetNode (n i : Nat) : ℤ := (i : ℤ) - (n : ℤ)

/-- Modelled from the spec: the Gram matrix `AᵀA` of the CoefficientSolver's
normal equations (§4.1), where `A` is the `(2n+1) × (m+1)` design matrix
whose row `i` holds the powers `k^0, …, k^m` of the offset `k = i − n`:
entry `(j, l)` is `Σ_i A[i][j]·A[i][l] = Σ_i k_i^j · k_i^l`.  The
CoefficientSolver is part of the core library (`savgolFilter.h`), which is
not among the repository sources. -/
def gramZ (n m : Nat) : List (List ℤ) :=
  (List.range (m + 1)).map fun j =>
    (List.range (m + 1)).map fun l =>
      ((List.range (2 * n + 1)).map fun i => offsetNode n i ^ j * offsetNode n i ^ l).sum

/-- Column `i` of the right-hand side `Aᵀ` of the normal equations: the
powers of the offset of window position `i`. -/
def rhsColZ (n m i : Nat) : List ℤ :=
  (List.range (m + 1)).map fun j => offsetNode n i ^ j

/-- Replace column `j` of a list matrix by the vector `b` (row `a` receives
`b[a]`), as Cramer's rule requires. -/
def replaceColZ (M : List (List ℤ)) (j : Nat) (b : List ℤ) : List (List ℤ) :=
  List.zipWith (fun r bv => r.set j bv) M b

/-- The minor of a `(k+1) × (k+1)` list matrix obtained by deleting row `0`
and column `j`, read off by index arithmetic. -/
def minorZ (M : List (List ℤ)) (j k : Nat) : List (List ℤ) :=
  (List.range k).map fun a =>
    (List.range k).map fun b =>
      (M.getD (a + 1) []).getD (if b < j then b else b + 1) 0

/-- Determinant of a `k × k` list matrix by Laplace expansion along the
first row. -/
def detZsized : Nat → List (List ℤ) → ℤ
  | 0, _ => 1
  | k + 1, M =>
    ((List.range (k + 1)).map fun j =>
      (-1) ^ j * (M.getD 0 []).getD j 0 * detZsized k (minorZ M j k)).sum

/-- Determinant of a square list matrix. -/
def detZ (M : List (List ℤ)) : ℤ := detZsized M.length M

/-- The design matrix of spec §4.1 as a Mathlib matrix, used to relate the
solver's integer determinants to the matrix theory of the library. -/
def designMat (n m : Nat) : Matrix (Fin (2 * n + 1)) (Fin (m + 1)) ℤ :=
  Matrix.of fun i j => offsetNode n i.val ^ j.val

/-- A square list matrix as a Mathlib matrix (entries read by `getD`, as
`detZ` reads them). -/
def toMatZ (k : Nat) (M : List (List ℤ)) : Matrix (Fin k) (Fin k) ℤ :=
  Matrix.of fun i j => (M.getD i.val []).getD j.val 0

/-! ## Coefficient solver (spec §4.1) -/

/-- Modelled from the spec: `deriveKernel(n, m, t, d, dt)` of the
CoefficientSolver (§4.1), which is part of the core library and not among
the repository sources.  Constructs the design matrix, forms the normal
equations `(AᵗA) C = Aᵗ`, and solves them exactly by Cramer's rule: entry
`C[j][i]` of the pseudo-inverse is the determinant of the Gram matrix with
column `j` replaced by column `i` of `Aᵗ`, divided by the Gram determinant.
A singular system (zero Gram determinant) surfaces as `none` — the spec's
`InternalComputationError`, which the spec states is unreachable for a
valid configuration (`m < 2n+1`) and `detZ_gramZ_ne_zero` proves so.  The
filter coefficient for offset `k` is the `d`-th derivative of the fitted
polynomial evaluated at target position `t` (offset `t − n` from the window
centre), divided by `dt^d`. -/
def deriveKernel (n m t d : Nat) (dt : Frac) : Option (List Frac) :=
  let D := detZ (gramZ n m)
  if D = 0 then none
  else
    let C : List (List Frac) :=
      (List.range (m + 1)).map fun j =>
        (List.range (2 * n + 1)).map fun i =>
          ⟨detZ (replaceColZ (gramZ n m) j (rhsColZ n m i)), D⟩
    let x0 : Frac := (t : Frac) - (n : Frac)
    some ((List.range (2 * n + 1)).map fun i =>
      (((List.range (m + 1)).map fun j =>
        if d ≤ j then (C.getD j []).getD i 0 * (Nat.descFactorial j d : Frac) * x0 ^ (j - d)
        else 0).sum) / dt ^ d)

/-! ## Data model -/

/-- The four boundary-handling policies (stable codes 0..3 in the binding). -/
inductive SavgolBoundaryMode
  | polynomial
  | reflect
  | periodic
  | constant
  deriving DecidableEq, Repr

/-- Filter configuration (spec §3).  `target_point` is part of the spec's
FilterConfig record; the legacy entry point supplies it explicitly. -/
structure SavgolConfig where
  half_window : Nat
  poly_order : Nat
  target_point : Nat
  derivative : Nat
  time_step : Frac
  boundary : SavgolBoundaryMode
  deriving DecidableEq, Repr

/-- A constructed filter: one configuration plus one precomputed kernel
(spec §3); `window_size` mirrors the field read by the binding. -/
structure SavgolFilter where
  config : SavgolConfig
  window_size : Nat
  kernel : List Frac
  deriving DecidableEq, Repr

/-- Failure modes of filter construction: a configuration field out of range
(`ConfigError`) or a singular normal-equations system
(`InternalComputationError`). -/
inductive CreateErr
  | configErr
  | internalErr
  deriving DecidableEq, Repr

/-- Modelled from the spec: `savgol_create` of the core library (§4.1/§4.2),
not among the repository sources.  Validates `n ≥ 1`, `m < 2n+1`,
`t ≤ 2n`, `dt > 0` (derivative order is a natural number, hence `d ≥ 0`
always holds) and derives the kernel eagerly. -/
def savgol_create (cfg : SavgolConfig) : Except CreateErr SavgolFilter :=
  if 1 ≤ cfg.half_window ∧ cfg.poly_order < 2 * cfg.half_window + 1 ∧
      cfg.target_point ≤ 2 * cfg.half_window ∧ 0 < cfg.time_step then
    match deriveKernel cfg.half_window cfg.poly_order cfg.target_point cfg.derivative
        cfg.time_step with
    | some k => .ok ⟨cfg, 2 * cfg.half_window + 1, k⟩
    | none => .error .internalErr
  else .error .configErr

/-! ## Filter engine (spec §4.2) and boundary handler (spec §4.3) -/

/-- Convolution of a kernel with the window of `data` starting at index
`start`: `Σ_k kernel[k] * data[start+k]`. -/
def convWindow (kernel data : List Frac) (start : Nat) : Frac :=
  ((List.range kernel.length).map fun k => kernel.getD k 0 * data.getD (start + k) 0).sum

/-- Mirror an out-of-range index around the first/last sample, excluding the
edge sample itself (spec §4.3 REFLECT: `data[-1-j] = data[1+j]`,
`data[len+j] = data[len-2-j]`). -/
def reflectIdx (len : Nat) (z : ℤ) : ℤ :=
  if z < 0 then -z else if (len : ℤ) ≤ z then 2 * (len : ℤ) - 2 - z else z

/-- Modelled from the spec: virtual sample lookup of the BoundaryHandler
(§4.3) for the REFLECT, PERIODIC and CONSTANT modes; part of the core
library, not among the repository sources. -/
def virtSample (mode : SavgolBoundaryMode) (data : List Frac) (z : ℤ) : Frac :=
  let len := data.length
  match mode with
  | .reflect => data.getD (reflectIdx len z).toNat 0
  | .periodic => data.getD (z % (len : ℤ)).toNat 0
  | .constant =>
    if z < 0 then data.getD 0 0
    else if (len : ℤ) ≤ z then data.getD (len - 1) 0
    else data.getD z.toNat 0
  | .polynomial => 0

/-- The all-zero kernel, used as the (unreachable) fallback when an edge
refit would fail. -/
def zeroKernel (n : Nat) : List Frac := List.replicate (2 * n + 1) 0

/-- Modelled from the spec: the POLYNOMIAL boundary policy (§4.3), part of
the core library, not among the repository sources.  At an edge index the
least-squares polynomial is refitted over the `2n+1` samples closest to the
boundary with the target point shifted to the actual position of `i` inside
that window. -/
def polyEdge (f : SavgolFilter) (data : List Frac) (i : Nat) : Frac :=
  let n := f.config.half_window
  let len := data.length
  if i < n then
    convWindow
      ((deriveKernel n f.config.poly_order i f.config.derivative f.config.time_step).getD
        (zeroKernel n)) data 0
  else
    let start := len - (2 * n + 1)
    convWindow
      ((deriveKernel n f.config.poly_order (i - start) f.config.derivative
        f.config.time_step).getD (zeroKernel n)) data start

/-- Modelled from the spec: `savgol_apply` of the core library (§4.2), not
among the repository sources.  Same-length output; interior indices get the
direct convolution, edge indices are produced by the boundary policy. -/
def savgol_apply (f : SavgolFilter) (data : List Frac) : List Frac :=
  let n := f.config.half_window
  List.ofFn fun i : Fin data.length =>
    if n ≤ i.1 ∧ i.1 + n < data.length then convWindow f.kernel data (i.1 - n)
    else
      match f.config.boundary with
      | .polynomial => polyEdge f data i.1
      | mode =>
        ((List.range (2 * n + 1)).map fun k =>
          f.kernel.getD k 0 * virtSample mode data ((i.1 : ℤ) + (k : ℤ) - (n : ℤ))).sum

/-- Modelled from the spec: `savgol_apply_valid` of the core library (§4.2),
not among the repository sources.  Only the interior convolution values,
remapped to output positions `0 .. len-2n-1`; the number of samples written
is the length of the returned list. -/
def savgol_apply_valid (f : SavgolFilter) (data : List Frac) : List Frac :=
  let n := f.config.half_window
  List.ofFn fun j : Fin (data.length - 2 * n) => convWindow f.kernel data j.1

/-! ## The Lua binding (translated from `src/luaSGF.c`) -/

/-- A value stored in a Lua table slot, as the binding's extraction loops can
observe it: `nil`, a number (including numeric strings, which Lua converts),
or a non-nil value not convertible to a number. -/
inductive LuaVal
  | nil
  | num (q : Frac)
  | other
  deriving DecidableEq, Repr

/-- `lua_tonumber`: a number converts to itself, everything else (including
`nil`) silently converts to `0` (luaSGF.c line 397). -/
def LuaVal.toNum : LuaVal → Frac
  | .num q => q
  | _ => 0

/-- Whether a table slot holds a number. -/
def LuaVal.isNum : LuaVal → Bool
  | .num _ => true
  | _ => false

/-- Errors the binding raises via `luaL_error` / `luaL_argcheck` /
`luaL_checknumber`.  `tooShort` carries the required minimum and the actual
length, as the messages at luaSGF.c lines 193 and 275 do; `hole` carries the
(1-based) index printed at line 212. -/
inductive LuaErr
  | destroyed
  | tooShort (min got : Nat)
  | hole (idx : Nat)
  | typeErr
  | allocFail
  | coreFail
  | createFail
  deriving DecidableEq, Repr

/-- Whether an error is the binding's hole error. -/
def LuaErr.isHole : LuaErr → Bool
  | .hole _ => true
  | _ => false

/-- The extraction loop of `luaSGF_savgol_apply` (luaSGF.c lines 209-216),
carrying the 1-based Lua index: a `nil` slot is reported as a hole at its
index; a non-nil slot that is not a number makes `luaL_checknumber` raise. -/
def readAllAux : Nat → List LuaVal → Except LuaErr (List Frac)
  | _, [] => .ok []
  | i, .nil :: _ => .error (.hole i)
  | _, .other :: _ => .error .typeErr
  | i, .num q :: rest => (readAllAux (i + 1) rest).map fun qs => q :: qs

/-- Extraction as performed by `luaSGF_savgol_apply`, starting at index 1. -/
def readAll (data : List LuaVal) : Except LuaErr (List Frac) := readAllAux 1 data

/-- The extraction loop of `luaSGF_savgol_apply_valid` (luaSGF.c lines
291-295): no explicit hole check, `luaL_checknumber` raises on any slot that
is not a number (including `nil`). -/
def readAllStrict : List LuaVal → Except LuaErr (List Frac)
  | [] => .ok []
  | .num q :: rest => (readAllStrict rest).map fun qs => q :: qs
  | _ :: _ => .error .typeErr

/-- `luaSGF_savgol_create` (luaSGF.c lines 117-136): builds the filter via
the core `savgol_create`; a `NULL` result becomes the single raised error
message, merging configuration and allocation failures. -/
def luaSGF_savgol_create (cfg : SavgolConfig) : Except LuaErr SavgolFilter :=
  match savgol_create cfg with
  | .ok f => .ok f
  | .error _ => .error .createFail

/-- `luaSGF_savgol_destroy` (luaSGF.c lines 150-157): if the slot is not
`NULL`, release the core filter (counted by the second component) and null
the slot; otherwise do nothing. -/
def luaSGF_savgol_destroy (ud : Option SavgolFilter) : Option SavgolFilter × Nat :=
  match ud with
  | some _ => (none, 1)
  | none => (none, 0)

/-- `luaSGF_savgol_apply` (luaSGF.c lines 179-240): argument check against a
destroyed filter, length check against `window_size`, extraction with hole
detection, core convolution, fresh same-length result table. -/
def luaSGF_savgol_apply : Option SavgolFilter → List LuaVal → Except LuaErr (List Frac)
  | none, _ => .error .destroyed
  | some f, data =>
    if data.length < f.window_size then .error (.tooShort f.window_size data.length)
    else
      match readAll data with
      | .error e => .error e
      | .ok ind => .ok (savgol_apply f ind)

/-- `luaSGF_savgol_apply_valid` (luaSGF.c lines 261-318): argument check,
length check, strict extraction, core call returning the number of samples
written, error if nothing was written although output was expected, result
table holding exactly the written samples. -/
def luaSGF_savgol_apply_valid : Option SavgolFilter → List LuaVal → Except LuaErr (List Frac)
  | none, _ => .error .destroyed
  | some f, data =>
    let in_len := data.length
    if in_len < f.window_size then .error (.tooShort f.window_size in_len)
    else
      let out_len := in_len - 2 * f.config.half_window
      match readAllStrict data with
      | .error e => .error e
      | .ok ind =>
        let out := savgol_apply_valid f ind
        if out.length = 0 ∧ 0 < out_len then .error .coreFail
        else .ok out

/-! ## The legacy entry point `luaSGF_calc` (luaSGF.c lines 343-424) -/

/-- The messages `luaSGF_calc` returns as the second value of a
`(nil, message)` pair. -/
inductive CalcMsg
  | halfWindow
  | polyOrder
  | targetPoint
  | tooShort
  | allocFail
  | internalFail
  deriving DecidableEq, Repr

/-- Outcome of a call to `luaSGF_calc`: a raised Lua error (from an argument
check), a returned `(nil, message)` pair, or a returned `(table, nil)`
pair. -/
inductive CalcOutcome
  | abort (e : LuaErr)
  | fail (m : CalcMsg)
  | ok (out : List Frac)
  deriving DecidableEq, Repr

/-- The result table of an outcome, with every kind of failure collapsed. -/
def CalcOutcome.toOption : CalcOutcome → Option (List Frac)
  | .ok out => some out
  | _ => none

/-- The result of the binding's structured entry points, with every kind of
failure collapsed. -/
def exceptToOption {α : Type} (r : Except LuaErr α) : Option α :=
  match r with
  | .ok a => some a
  | .error _ => none

/-- The C cast `(uint8_t)` applied to a Lua integer: reduction modulo 256. -/
def toUInt8 (z : ℤ) : Nat := (z % 256).toNat

/-- The parameter validation of `luaSGF_calc` (luaSGF.c lines 358-372), on
the already-cast `uint8_t` values.  Note that the window size in the
polynomial-order comparison is itself computed in `uint8_t` arithmetic:
`(uint8_t)(2 * halfWindowSize + 1)`, i.e. modulo 256. -/
def calcValidate (hw m t : Nat) : Option CalcMsg :=
  if hw < 1 then some .halfWindow
  else if (2 * hw + 1) % 256 ≤ m then some .polyOrder
  else if 2 * hw < t then some .targetPoint
  else none

/-- Modelled from the spec: `mes_savgolFilter`, the legacy core entry point
declared at luaSGF.c lines 42-44 but implemented in the core library, which
is not among the repository sources.  Per spec §4.4 the legacy calculation
is `create → apply → dispose` with `boundary_mode = POLYNOMIAL` and
`time_step = 1.0`; `none` models a nonzero return status. -/
def mes_savgolFilter (qs : List Frac) (hw m t d : Nat) : Option (List Frac) :=
  (deriveKernel hw m t d 1).map fun k =>
    savgol_apply ⟨⟨hw, m, t, d, 1, .polynomial⟩, 2 * hw + 1, k⟩ qs

/-- The body of `luaSGF_calc` after argument extraction (luaSGF.c lines
358-424), on the already-cast `uint8_t` parameters: validation, length
check (`2*hw+1` here is computed in `int` arithmetic, without truncation),
extraction via `lua_tonumber` (no error for holes or non-numbers), core
call, fresh result table. -/
def luaSGF_calc_checked (hw m t d : Nat) (data : List LuaVal) : CalcOutcome :=
  match calcValidate hw m t with
  | some msg => .fail msg
  | none =>
    if data.length < 2 * hw + 1 then .fail .tooShort
    else
      match mes_savgolFilter (data.map LuaVal.toNum) hw m t d with
      | none => .fail .internalFail
      | some out => .ok out

/-- A value on the Lua stack when `luaSGF_calc` is entered: an integer, a
non-integer number, a table, or anything else. -/
inductive LuaArg
  | int (z : ℤ)
  | num (q : Frac)
  | tbl (t : List LuaVal)
  | other
  deriving DecidableEq, Repr

/-- `luaL_checkinteger` on a stack slot: succeeds exactly on an integer. -/
def getInt : Option LuaArg → Option ℤ
  | some (.int z) => some z
  | _ => none

/-- Whether a stack slot holds a table (`lua_istable`). -/
def isTableArg : Option LuaArg → Bool
  | some (.tbl _) => true
  | _ => false

/-- `luaSGF_calc` (luaSGF.c lines 343-424) on a Lua stack: computes the
argument offset (1 when slot 1 is a table and more than one value is on the
stack, else 0), extracts four integers relative to that offset (raising on
failure, modelled payload-free) with their `uint8_t` casts, validates them
(lines 358-372, before the table is type-checked at line 375), then checks
the table argument and runs the remaining body (`luaSGF_calc_checked`
re-evaluates the same pure validation, with the same outcome). -/
def luaSGF_calc_raw (stack : List LuaArg) : CalcOutcome :=
  let offset := if isTableArg (stack.get? 0) = true ∧ 1 < stack.length then 1 else 0
  match getInt (stack.get? offset), getInt (stack.get? (offset + 1)),
      getInt (stack.get? (offset + 2)), getInt (stack.get? (offset + 3)) with
  | some hw, some m, some t, some d =>
    match calcValidate (toUInt8 hw) (toUInt8 m) (toUInt8 t) with
    | some msg => .fail msg
    | none =>
      match stack.get? (offset + 4) with
      | some (.tbl data) =>
        luaSGF_calc_checked (toUInt8 hw) (toUInt8 m) (toUInt8 t) (toUInt8 d) data
      | _ => .abort .typeErr
  | _, _, _, _ => .abort .typeErr

/-- Calling the module value itself (luaSGF.c lines 459-462): the `__call`
metamethod is `luaSGF_calc`, and Lua prepends the called object — the module
table — to the argument list. -/
def luaSGF_module_call (args : List LuaArg) : CalcOutcome :=
  luaSGF_calc_raw (.tbl [] :: args)

/-- The composite `create (boundary POLYNOMIAL, time_step 1.0) → apply →
dispose` pipeline that spec §4.4 declares equivalent to `calc`. -/
def compositeCalc (hw m t d : Nat) (data : List LuaVal) : Except LuaErr (List Frac) :=
  match luaSGF_savgol_create ⟨hw, m, t, d, 1, .polynomial⟩ with
  | .error e => .error e
  | .ok f =>
    let r := luaSGF_savgol_apply (some f) data
    let handle := luaSGF_savgol_destroy (some f)
    match handle with
    | _ => r

/-! ## State-passing embedding of the filtering methods

The observable Lua state a filtering call can touch: the userdata slot
holding the filter pointer and the argument table.  Each C API read the
source performs is modelled as a function returning the read value together
with the state, so that the embedding records exactly which steps touch the
state and how. -/

/-- The Lua-visible state of a `filter:apply` / `filter:apply_valid` call. -/
structure LuaApplyState where
  slot : Option SavgolFilter
  tbl : List LuaVal
  deriving DecidableEq, Repr

/-- `luaL_checkudata` (luaSGF.c line 182): reads the userdata slot. -/
def st_checkudata (s : LuaApplyState) : Option SavgolFilter × LuaApplyState :=
  (s.slot, s)

/-- `lua_rawlen` (luaSGF.c line 189): reads the raw table length. -/
def st_rawlen (s : LuaApplyState) : Nat × LuaApplyState :=
  (s.tbl.length, s)

/-- The extraction loop of `apply` (luaSGF.c lines 209-216): `lua_rawgeti`
reads each slot, nothing is written back. -/
def st_readAll (s : LuaApplyState) : Except LuaErr (List Frac) × LuaApplyState :=
  (readAll s.tbl, s)

/-- The extraction loop of `apply_valid` (luaSGF.c lines 291-295). -/
def st_readAllStrict (s : LuaApplyState) : Except LuaErr (List Frac) × LuaApplyState :=
  (readAllStrict s.tbl, s)

/-- `luaSGF_savgol_apply` with the Lua state threaded through every step as
the C source performs it (luaSGF.c lines 179-240): the result is a freshly
created table, never a view of the input. -/
def luaSGF_savgol_apply_st (s0 : LuaApplyState) :
    Except LuaErr (List Frac) × LuaApplyState :=
  let c := st_checkudata s0
  match c.1 with
  | none => (.error .destroyed, c.2)
  | some f =>
    let l := st_rawlen c.2
    if l.1 < f.window_size then (.error (.tooShort f.window_size l.1), l.2)
    else
      let r := st_readAll l.2
      match r.1 with
      | .error e => (.error e, r.2)
      | .ok ind => (.ok (savgol_apply f ind), r.2)

/-- `luaSGF_savgol_apply_valid` with the Lua state threaded through every
step as the C source performs it (luaSGF.c lines 261-318). -/
def luaSGF_savgol_apply_valid_st (s0 : LuaApplyState) :
    Except LuaErr (List Frac) × LuaApplyState :=
  let c := st_checkudata s0
  match c.1 with
  | none => (.error .destroyed, c.2)
  | some f =>
    let l := st_rawlen c.2
    if l.1 < f.window_size then (.error (.tooShort f.window_size l.1), l.2)
    else
      let out_len := l.1 - 2 * f.config.half_window
      let r := st_readAllStrict l.2
      match r.1 with
      | .error e => (.error e, r.2)
      | .ok ind =>
        let out := savgol_apply_valid f ind
        if out.length = 0 ∧ 0 < out_len then (.error .coreFail, r.2)
        else (.ok out, r.2)

/-! ## Memory-instrumented embedding of the allocation behaviour

Each entry point allocates call-scoped buffers with `malloc`.  The
instrumented variants below mirror the source's allocation and free calls:
a `Bool` oracle decides whether each `malloc` succeeds, a live flag tracks
each buffer, and `freeBuf` models a `free` call (also on `NULL`).  A raised
Lua error (`luaL_error` after explicit frees, or a raising C API call such
as `luaL_checknumber`, which `longjmp`s without any free) ends the call with
whatever flags are live at that point. -/

/-- `free`: after the call the buffer is no longer live (freeing a `NULL`
buffer is a no-op and also yields a dead buffer). -/
def freeBuf (_live : Bool) : Bool := false

/-- `luaSGF_savgol_apply` instrumented with its two buffers (luaSGF.c lines
198-199: `in_data`, `out_data`).  `o1`/`o2` are the `malloc` outcomes and
`coreOk` the success of the core call.  Second and third components: the
live flags of `in_data` and `out_data` when the call ends.  The extraction
loop frees both buffers before raising the hole error (lines 210-212), but
a `luaL_checknumber` raise at line 214 leaves the call by `longjmp` without
reaching any `free`. -/
def luaSGF_savgol_apply_mem (ud : Option SavgolFilter) (data : List LuaVal)
    (o1 o2 coreOk : Bool) : Except LuaErr (List Frac) × Bool × Bool :=
  match ud with
  | none => (.error .destroyed, false, false)
  | some f =>
    if data.length < f.window_size then
      (.error (.tooShort f.window_size data.length), false, false)
    else
      let inLive := o1
      let outLive := o2
      if !(o1 && o2) then (.error .allocFail, freeBuf inLive, freeBuf outLive)
      else
        match readAll data with
        | .error (.hole i) => (.error (.hole i), freeBuf inLive, freeBuf outLive)
        | .error e => (.error e, inLive, outLive)
        | .ok ind =>
          if coreOk then (.ok (savgol_apply f ind), freeBuf inLive, freeBuf outLive)
          else (.error .coreFail, freeBuf inLive, freeBuf outLive)

/-- `luaSGF_savgol_apply_valid` instrumented with its two buffers (luaSGF.c
lines 282-283).  Its extraction loop has no hole check at all: any slot that
is not a number makes `luaL_checknumber` raise at line 293, leaving the call
by `longjmp` without reaching any `free`. -/
def luaSGF_savgol_apply_valid_mem (ud : Option SavgolFilter) (data : List LuaVal)
    (o1 o2 coreOk : Bool) : Except LuaErr (List Frac) × Bool × Bool :=
  match ud with
  | none => (.error .destroyed, false, false)
  | some f =>
    let in_len := data.length
    if in_len < f.window_size then
      (.error (.tooShort f.window_size in_len), false, false)
    else
      let out_len := in_len - 2 * f.config.half_window
      let inLive := o1
      let outLive := o2
      if !(o1 && o2) then (.error .allocFail, freeBuf inLive, freeBuf outLive)
      else
        match readAllStrict data with
        | .error e => (.error e, inLive, outLive)
        | .ok ind =>
          let out := savgol_apply_valid f ind
          let written := if coreOk then out.length else 0
          if written = 0 ∧ 0 < out_len then
            (.error .coreFail, freeBuf inLive, freeBuf outLive)
          else (.ok (out.take written), freeBuf inLive, freeBuf outLive)

/-- `luaSGF_calc` instrumented with its two buffers (luaSGF.c lines 384-385:
`rawData`, `filteredData`).  `rawData` is freed right after the core call
(line 405), `filteredData` on both the failure and the success path (lines
408, 421); extraction uses `lua_tonumber`, which never raises. -/
def luaSGF_calc_mem (hw m t d : Nat) (data : List LuaVal) (o1 o2 coreOk : Bool) :
    CalcOutcome × Bool × Bool :=
  match calcValidate hw m t with
  | some msg => (.fail msg, false, false)
  | none =>
    if data.length < 2 * hw + 1 then (.fail .tooShort, false, false)
    else
      let rawLive := o1
      let filtLive := o2
      if !(o1 && o2) then (.fail .allocFail, freeBuf rawLive, freeBuf filtLive)
      else
        let res := mes_savgolFilter (data.map LuaVal.toNum) hw m t d
        let rawLive := freeBuf rawLive
        match res, coreOk with
        | some out, true => (.ok out, rawLive, freeBuf filtLive)
        | _, _ => (.fail .internalFail, rawLive, freeBuf filtLive)

/-! ## Concrete fixtures and auxiliary observations -/

/-- A small valid configuration: `half_window 1`, `poly_order 0`, smoothing,
default boundary mode. -/
def cfgW : SavgolConfig := ⟨1, 0, 1, 0, 1, .polynomial⟩

/-- The filter built from `cfgW`. -/
def filtW : SavgolFilter :=
  match savgol_create cfgW with
  | .ok f => f
  | .error _ => ⟨cfgW, 3, []⟩

/-- The same configuration with REFLECT boundary mode. -/
def cfgWr : SavgolConfig := ⟨1, 0, 1, 0, 1, .reflect⟩

/-- The filter built from `cfgWr`. -/
def filtWr : SavgolFilter :=
  match savgol_create cfgWr with
  | .ok f => f
  | .error _ => ⟨cfgWr, 3, []⟩

/-- A configuration whose window size `2·128+1 = 257` overflows the
`uint8_t` arithmetic of `luaSGF_calc`'s validation. -/
def cfgBig : SavgolConfig := ⟨128, 1, 0, 0, 1, .polynomial⟩

/-- The filter built from `cfgBig`. -/
def filtBig : SavgolFilter :=
  match savgol_create cfgBig with
  | .ok f => f
  | .error _ => ⟨cfgBig, 257, []⟩

/-- The first table slot (1-based) that does not hold a number, together
with its content. -/
def firstBadAux : Nat → List LuaVal → Option (Nat × LuaVal)
  | _, [] => none
  | i, v :: rest => if v.isNum then firstBadAux (i + 1) rest else some (i, v)

/-- First defective (non-number) slot of a table, 1-based. -/
def firstBad (data : List LuaVal) : Option (Nat × LuaVal) := firstBadAux 1 data

end LuaSGF

deriving instance DecidableEq for Except

namespace LuaSGF

/-! ## Helper lemmas -/

/-- Unpacking a successful `savgol_create`: shape of the filter and the
validated configuration bounds. -/
theorem savgol_create_ok_parts {cfg : SavgolConfig} {f : SavgolFilter}
    (h : savgol_create cfg = .ok f) :
    f.config = cfg ∧ f.window_size = 2 * cfg.half_window + 1 ∧
      deriveKernel cfg.half_window cfg.poly_order cfg.target_point cfg.derivative
        cfg.time_step = some f.kernel ∧
      (1 ≤ cfg.half_window ∧ cfg.poly_order < 2 * cfg.half_window + 1 ∧
        cfg.target_point ≤ 2 * cfg.half_window ∧ 0 < cfg.time_step) := by
  unfold savgol_create at h
  split at h
  case isTrue hv =>
    cases hk : deriveKernel cfg.half_window cfg.poly_order cfg.target_point cfg.derivative
        cfg.time_step with
    | some k =>
      rw [hk] at h
      cases h
      exact ⟨rfl, rfl, rfl, hv⟩
    | none =>
      rw [hk] at h
      cases h
  case isFalse hv => cases h

/-- Extraction with the hole check succeeds on a table of numbers and
returns exactly those numbers. -/
theorem readAllAux_map_num (qs : List Frac) : ∀ i, readAllAux i (qs.map LuaVal.num) = .ok qs := by
  induction qs with
  | nil => intro i; rfl
  | cons q rest ih =>
    intro i
    simp only [List.map, readAllAux, ih]
    rfl

/-- Extraction as in `apply` on a table of numbers. -/
theorem readAll_map_num (qs : List Frac) : readAll (qs.map LuaVal.num) = .ok qs :=
  readAllAux_map_num qs 1

/-- Strict extraction succeeds on a table of numbers. -/
theorem readAllStrict_map_num (qs : List Frac) :
    readAllStrict (qs.map LuaVal.num) = .ok qs := by
  induction qs with
  | nil => rfl
  | cons q rest ih =>
    simp only [List.map, readAllStrict, ih]
    rfl

/-- Extraction with the hole check on an all-numbers table reads the
`lua_tonumber` values. -/
theorem readAllAux_dense (data : List LuaVal) :
    ∀ i, (∀ v ∈ data, v.isNum = true) → readAllAux i data = .ok (data.map LuaVal.toNum) := by
  induction data with
  | nil => intro i _; rfl
  | cons v rest ih =>
    intro i h
    cases v with
    | num q =>
      simp only [List.map, readAllAux, ih (i + 1) fun w hw => h w (List.mem_cons_of_mem _ hw)]
      rfl
    | nil =>
      have := h _ (List.mem_cons_self _ _)
      simp [LuaVal.isNum] at this
    | other =>
      have := h _ (List.mem_cons_self _ _)
      simp [LuaVal.isNum] at this

/-- `savgol_apply` preserves the length. -/
theorem savgol_apply_length (f : SavgolFilter) (data : List Frac) :
    (savgol_apply f data).length = data.length := by
  simp [savgol_apply]

/-- `savgol_apply_valid` writes `len − 2n` samples. -/
theorem savgol_apply_valid_length (f : SavgolFilter) (data : List Frac) :
    (savgol_apply_valid f data).length = data.length - 2 * f.config.half_window := by
  simp [savgol_apply_valid]

/-- The binding's `apply` on a long-enough table of numbers returns the
core's same-length result. -/
theorem luaSGF_apply_ok (f : SavgolFilter) (qs : List Frac)
    (hlen : f.window_size ≤ qs.length) :
    luaSGF_savgol_apply (some f) (qs.map LuaVal.num) = .ok (savgol_apply f qs) := by
  simp only [luaSGF_savgol_apply]
  rw [List.length_map, if_neg (by omega), readAll_map_num]

/-- The binding's `apply_valid` on a long-enough table of numbers returns
the core's result of `len − 2n` samples. -/
theorem luaSGF_apply_valid_ok (f : SavgolFilter) (qs : List Frac)
    (hlen : f.window_size ≤ qs.length) :
    luaSGF_savgol_apply_valid (some f) (qs.map LuaVal.num) =
      .ok (savgol_apply_valid f qs) := by
  simp only [luaSGF_savgol_apply_valid]
  rw [List.length_map, if_neg (by omega), readAllStrict_map_num]
  show (if (savgol_apply_valid f qs).length = 0 ∧ 0 < qs.length - 2 * f.config.half_window
    then (Except.error LuaErr.coreFail : Except LuaErr (List Frac))
    else Except.ok (savgol_apply_valid f qs)) = Except.ok (savgol_apply_valid f qs)
  have hlen0 : ¬((savgol_apply_valid f qs).length = 0 ∧
      0 < qs.length - 2 * f.config.half_window) := by
    rw [savgol_apply_valid_length]
    omega
  rw [if_neg hlen0]

/-! ## Claims -/

/-- **C3**: after a filter has been disposed, every subsequent `apply` or
`apply_valid` on the same handle reports the use-after-destroy error and
computes no result, while a second `destroy` on the same handle is a no-op
that releases nothing and raises nothing. -/
theorem destroy_idempotent_and_use_after_destroy_errors (ud : Option SavgolFilter)
    (data dataV : List LuaVal) :
    luaSGF_savgol_apply (luaSGF_savgol_destroy ud).1 data = .error .destroyed ∧
    luaSGF_savgol_apply_valid (luaSGF_savgol_destroy ud).1 dataV = .error .destroyed ∧
    luaSGF_savgol_destroy (luaSGF_savgol_destroy ud).1 = (none, 0) := by
  cases ud <;> exact ⟨rfl, rfl, rfl⟩

/-- **C7**: `apply` and `apply_valid` never mutate the Lua-visible state
(the filter slot and the input table): in the state-passing embedding that
mirrors each C API step of the source, the final state equals the initial
state on every path, and the produced value is the one of the pure model
(a freshly built result list). -/
theorem apply_and_apply_valid_frame (s : LuaApplyState) :
    (luaSGF_savgol_apply_st s).2 = s ∧
    (luaSGF_savgol_apply_valid_st s).2 = s ∧
    (luaSGF_savgol_apply_st s).1 = luaSGF_savgol_apply s.slot s.tbl ∧
    (luaSGF_savgol_apply_valid_st s).1 = luaSGF_savgol_apply_valid s.slot s.tbl := by
  obtain ⟨slot, tbl⟩ := s
  cases slot with
  | none => exact ⟨rfl, rfl, rfl, rfl⟩
  | some f =>
    refine ⟨?_, ?_, ?_, ?_⟩ <;>
      simp only [luaSGF_savgol_apply_st, luaSGF_savgol_apply_valid_st, st_checkudata,
        st_rawlen, st_readAll, st_readAllStrict, luaSGF_savgol_apply,
        luaSGF_savgol_apply_valid] <;>
      split <;> try rfl
    all_goals split <;> try rfl
    all_goals split <;> rfl

/-- **C1**: for every non-disposed, successfully created filter with
half-window `n` (window size `2n+1`) and every input sequence of numbers of
length at least `window_size`, `apply` returns a new output sequence of
length exactly `len(data)` and `apply_valid` returns a new output sequence
of length exactly `len(data) − 2n`. -/
theorem apply_and_apply_valid_output_lengths (cfg : SavgolConfig) (f : SavgolFilter)
    (qs : List Frac) (hcf : savgol_create cfg = .ok f)
    (hlen : f.window_size ≤ qs.length) :
    (∃ out, luaSGF_savgol_apply (some f) (qs.map LuaVal.num) = .ok out ∧
      out.length = qs.length) ∧
    (∃ out, luaSGF_savgol_apply_valid (some f) (qs.map LuaVal.num) = .ok out ∧
      out.length = qs.length - 2 * cfg.half_window) := by
  obtain ⟨hcfg, hws, -, -⟩ := savgol_create_ok_parts hcf
  refine ⟨⟨savgol_apply f qs, luaSGF_apply_ok f qs hlen, savgol_apply_length f qs⟩,
    ⟨savgol_apply_valid f qs, luaSGF_apply_valid_ok f qs hlen, ?_⟩⟩
  rw [savgol_apply_valid_length, hcfg]

/-- Witness for C1: the filter of `cfgW` applied to `[1, 2, 3, 4]`. -/
theorem apply_and_apply_valid_output_lengths_witness :
    (∃ out, luaSGF_savgol_apply (some filtW) (([1, 2, 3, 4] : List Frac).map LuaVal.num)
        = .ok out ∧ out.length = ([1, 2, 3, 4] : List Frac).length) ∧
    (∃ out, luaSGF_savgol_apply_valid (some filtW)
        (([1, 2, 3, 4] : List Frac).map LuaVal.num) = .ok out ∧
      out.length = ([1, 2, 3, 4] : List Frac).length - 2 * cfgW.half_window) :=
  apply_and_apply_valid_output_lengths cfgW filtW [1, 2, 3, 4] (by decide) (by decide)

/-- **C2 counterexample**: with window size 3 (`half_window 1`) and an input
of length exactly `window_size`, `apply_valid` succeeds with an output of
length `1` — the claim's asserted length `0` is wrong. -/
theorem apply_valid_at_window_size_length_one_cex :
    (luaSGF_savgol_apply_valid (some filtW) (([1, 2, 3] : List Frac).map LuaVal.num)).map
      List.length = .ok 1 ∧ (1 : Nat) ≠ 0 := by
  exact ⟨by decide, by decide⟩

/-- **C2 amended**: for every successfully created filter, every input
shorter than `window_size` makes both `apply` and `apply_valid` fail with
the input error carrying the required length (`window_size`) and the actual
length; and when `len(data)` equals `window_size` exactly, `apply_valid`
succeeds with an output of length `1` (that is, `len − 2n`) rather than
failing. -/
theorem short_input_errors_and_window_size_gives_length_one (cfg : SavgolConfig)
    (f : SavgolFilter) (vals : List LuaVal) (qs : List Frac)
    (hcf : savgol_create cfg = .ok f) :
    (vals.length < f.window_size →
      luaSGF_savgol_apply (some f) vals = .error (.tooShort f.window_size vals.length) ∧
      luaSGF_savgol_apply_valid (some f) vals =
        .error (.tooShort f.window_size vals.length)) ∧
    (qs.length = f.window_size →
      ∃ out, luaSGF_savgol_apply_valid (some f) (qs.map LuaVal.num) = .ok out ∧
        out.length = 1) := by
  obtain ⟨hcfg, hws, -, -⟩ := savgol_create_ok_parts hcf
  constructor
  · intro hshort
    constructor
    · simp only [luaSGF_savgol_apply]
      rw [if_pos hshort]
    · simp only [luaSGF_savgol_apply_valid]
      rw [if_pos hshort]
  · intro heq
    refine ⟨savgol_apply_valid f qs, luaSGF_apply_valid_ok f qs (by omega), ?_⟩
    rw [savgol_apply_valid_length, hcfg]
    omega

/-- Witness for the amended C2: too-short input `[1]` errors with the
required and actual lengths; input of length `window_size` gives one valid
sample. -/
theorem short_input_errors_and_window_size_witness :
    (luaSGF_savgol_apply (some filtW) [LuaVal.num 1] =
        .error (.tooShort filtW.window_size 1) ∧
      luaSGF_savgol_apply_valid (some filtW) [LuaVal.num 1] =
        .error (.tooShort filtW.window_size 1)) ∧
    (∃ out, luaSGF_savgol_apply_valid (some filtW)
        (([1, 2, 3] : List Frac).map LuaVal.num) = .ok out ∧ out.length = 1) :=
  ⟨(short_input_errors_and_window_size_gives_length_one cfgW filtW [LuaVal.num 1] [1, 2, 3]
      (by decide)).1 (by decide),
    (short_input_errors_and_window_size_gives_length_one cfgW filtW [LuaVal.num 1] [1, 2, 3]
      (by decide)).2 (by decide)⟩

/-- **C8** (contradicted by the code): the raising `luaL_checknumber` exit
path of `apply` (non-numeric element) and of `apply_valid` (any non-number,
including nil) leaves both malloc'd call-scoped buffers live — a leak —
whereas the explicitly handled exits (here: `apply`'s hole path and `calc`'s
core path on the same data) free everything before leaving. -/
theorem apply_type_error_path_leaks_buffers :
    luaSGF_savgol_apply_mem (some filtW) [.num 1, .other, .num 1] true true true
      = (.error .typeErr, true, true) ∧
    luaSGF_savgol_apply_valid_mem (some filtW) [.num 1, .nil, .num 1] true true true
      = (.error .typeErr, true, true) ∧
    (luaSGF_calc_mem 1 0 0 0 [.num 1, .nil, .num 1] true true true).2 = (false, false) ∧
    (luaSGF_savgol_apply_mem (some filtW) [.num 1, .nil, .num 1] true true true).2
      = (false, false) :=
  ⟨by decide, by decide, by decide, by decide⟩

/-- `calc`'s validation accepts exactly the configurations within the spec's
bounds, provided the window size does not overflow the 8-bit arithmetic. -/
theorem calcValidate_none_iff (hw m t : Nat) (hhw : hw ≤ 127) :
    calcValidate hw m t = none ↔ (1 ≤ hw ∧ m < 2 * hw + 1 ∧ t ≤ 2 * hw) := by
  have hmod : (2 * hw + 1) % 256 = 2 * hw + 1 := Nat.mod_eq_of_lt (by omega)
  simp only [calcValidate, hmod]
  split_ifs with a b c <;> simp <;> omega

/-- Sum of a mapped range list as a `Finset.range` sum. -/
theorem list_sum_map_range (f : ℕ → ℤ) :
    ∀ N, ((List.range N).map f).sum = ∑ i ∈ Finset.range N, f i := by
  intro N
  induction N with
  | zero => rfl
  | succ N ih =>
    rw [List.range_succ, List.map_append, List.sum_append, Finset.sum_range_succ, ih]
    simp

/-- Reading a mapped range list with a default, inside the range. -/
theorem getD_range_map {α : Type} (f : ℕ → α) (dflt : α) {k a : Nat} (h : a < k) :
    ((List.range k).map f).getD a dflt = f a := by
  rw [List.getD_eq_getElem?_getD, List.getElem?_map, List.getElem?_range h]
  rfl

/-- The value of `Fin.succAbove`: indices left of the deleted column stay,
the rest shift up by one. -/
theorem succAbove_val (k : Nat) (j : Fin (k + 1)) (b : Fin k) :
    (j.succAbove b).val = if b.val < j.val then b.val else b.val + 1 := by
  show (if b.castSucc < j then b.castSucc else b.succ).val = _
  have hcond : b.castSucc < j ↔ b.val < j.val := by
    rw [Fin.lt_def]
    simp
  by_cases hb : b.val < j.val
  · rw [if_pos (hcond.mpr hb), if_pos hb]
    simp
  · rw [if_neg (fun hc => hb (hcond.mp hc)), if_neg hb]
    rfl

/-- `detZsized` computes the Mathlib determinant of the read-off matrix:
the Laplace expansion along the first row, by induction on the size. -/
theorem detZsized_eq_det : ∀ (k : Nat) (M : List (List ℤ)),
    detZsized k M = (toMatZ k M).det := by
  intro k
  induction k with
  | zero =>
    intro M
    rw [detZsized, Matrix.det_fin_zero]
  | succ k ih =>
    intro M
    rw [detZsized, Matrix.det_succ_row_zero]
    have hterm : ∀ j : Fin (k + 1),
        (-1 : ℤ) ^ j.val * (toMatZ (k + 1) M) 0 j *
          ((toMatZ (k + 1) M).submatrix Fin.succ j.succAbove).det =
        (-1 : ℤ) ^ j.val * (M.getD 0 []).getD j.val 0 * detZsized k (minorZ M j.val k) := by
      intro j
      have hsub : (toMatZ (k + 1) M).submatrix Fin.succ j.succAbove =
          toMatZ k (minorZ M j.val k) := by
        ext a b
        show (M.getD (Fin.succ a).val []).getD (j.succAbove b).val 0 =
          ((minorZ M j.val k).getD a.val []).getD b.val 0
        rw [succAbove_val, minorZ, getD_range_map _ _ a.isLt, getD_range_map _ _ b.isLt]
        rfl
      rw [hsub, ih (minorZ M j.val k)]
      rfl
    rw [Finset.sum_congr rfl fun j _ => hterm j,
      Fin.sum_univ_eq_sum_range
        (fun jv => (-1 : ℤ) ^ jv * (M.getD 0 []).getD jv 0 * detZsized k (minorZ M jv k))
        (k + 1),
      list_sum_map_range]

/-- The solver's Gram matrix read off as a Mathlib matrix is `AᵀA` for the
design matrix `A`. -/
theorem toMatZ_gramZ (n m : Nat) :
    toMatZ (m + 1) (gramZ n m) = Matrix.transpose (designMat n m) * designMat n m := by
  ext j l
  show ((gramZ n m).getD j.val []).getD l.val 0 = _
  rw [gramZ, getD_range_map _ _ j.isLt, getD_range_map _ _ l.isLt, list_sum_map_range,
    Matrix.mul_apply]
  simp only [Matrix.transpose_apply, designMat, Matrix.of_apply]
  rw [Fin.sum_univ_eq_sum_range
    (fun iv => offsetNode n iv ^ j.val * offsetNode n iv ^ l.val) (2 * n + 1)]

/-- The Gram matrix of the design matrix is nonsingular whenever
`m ≤ 2n` (spec §4.1: `AᵀA` is guaranteed nonsingular because `m <
window_size` and the offsets are distinct integers): a vector killed by
`AᵀA` is killed by `A` (sum of squares), hence by the square Vandermonde
matrix formed by the first `m+1` rows of `A`, whose determinant is a
product of differences of distinct nodes. -/
theorem det_gram_ne_zero (n m : Nat) (hm : m ≤ 2 * n) :
    (Matrix.transpose (designMat n m) * designMat n m).det ≠ 0 := by
  intro hdet
  obtain ⟨v, hv, hmv⟩ := Matrix.exists_mulVec_eq_zero_iff.mpr hdet
  have hBv : Matrix.mulVec (designMat n m) v = 0 := by
    have h1 : Matrix.dotProduct v
        (Matrix.mulVec (Matrix.transpose (designMat n m) * designMat n m) v) = 0 := by
      rw [hmv]
      simp
    rw [← Matrix.mulVec_mulVec, Matrix.dotProduct_mulVec, Matrix.vecMul_transpose] at h1
    have hz : ∀ i, Matrix.mulVec (designMat n m) v i * Matrix.mulVec (designMat n m) v i
        = 0 := by
      intro i
      have hnn : ∀ i ∈ Finset.univ,
          0 ≤ Matrix.mulVec (designMat n m) v i * Matrix.mulVec (designMat n m) v i :=
        fun i _ => mul_self_nonneg _
      have hsum : ∑ i, Matrix.mulVec (designMat n m) v i *
          Matrix.mulVec (designMat n m) v i = 0 := by
        simpa [Matrix.dotProduct] using h1
      exact (Finset.sum_eq_zero_iff_of_nonneg hnn).mp hsum i (Finset.mem_univ i)
    funext i
    exact mul_self_eq_zero.mp (hz i)
  have hle : m + 1 ≤ 2 * n + 1 := by omega
  have hVder : Matrix.mulVec
      (Matrix.vandermonde (fun j : Fin (m + 1) => offsetNode n j.val)) v = 0 := by
    funext j
    have hrow := congrFun hBv (Fin.castLE hle j)
    simpa [Matrix.mulVec, Matrix.dotProduct, designMat, Matrix.vandermonde] using hrow
  have hVdet : (Matrix.vandermonde (fun j : Fin (m + 1) => offsetNode n j.val)).det ≠ 0 := by
    rw [Matrix.det_vandermonde_ne_zero_iff]
    intro a b hab
    have hval : (a.val : ℤ) = (b.val : ℤ) := by
      simpa [offsetNode, sub_left_inj] using hab
    exact Fin.ext (by exact_mod_cast hval)
  exact hVdet (Matrix.exists_mulVec_eq_zero_iff.mp ⟨v, hv, hVder⟩)

/-- The solver's integer Gram determinant is nonzero for every window that
can fit the polynomial (`m ≤ 2n`). -/
theorem detZ_gramZ_ne_zero (n m : Nat) (hm : m ≤ 2 * n) : detZ (gramZ n m) ≠ 0 := by
  have hlen : (gramZ n m).length = m + 1 := by simp [gramZ]
  rw [detZ, hlen, detZsized_eq_det, toMatZ_gramZ]
  exact det_gram_ne_zero n m hm

/-- The coefficient solver succeeds at every configuration with
`poly_order ≤ 2·half_window` — the spec's nonsingularity guarantee. -/
theorem deriveKernel_isSome (n m t d : Nat) (dt : Frac) (hm : m ≤ 2 * n) :
    ∃ ker, deriveKernel n m t d dt = some ker := by
  simp only [deriveKernel]
  rw [if_neg (detZ_gramZ_ne_zero n m hm)]
  exact ⟨_, rfl⟩

/-- **C4 counterexample**: two configurations refuting the claim as stated.
At `half_window = 128`, `poly_order = 1`, `target_point = 0`, all three
bounds of the claim hold (`1 < 2·128+1`, `0 ≤ 2·128`, `1 ≤ 128`), yet the
validation of `luaSGF_calc` reports the polynomial-order ConfigError,
because it compares `poly_order` against `(uint8_t)(2·128+1) = 1`.  And at
the in-bounds configuration `(1, 0, 0, 0)` with `time_step = 0`, `create`
fails with a ConfigError (`time_step > 0` is part of the validated range,
spec §4.1) although none of the claim's three bounds is violated. -/
theorem calc_validation_truncation_cex :
    (calcValidate 128 1 0 = some .polyOrder ∧
      ¬(2 * 128 + 1 ≤ 1 ∨ 2 * 128 < 0 ∨ 128 < 1)) ∧
    (savgol_create ⟨1, 0, 0, 0, 0, .polynomial⟩ = .error .configErr ∧
      ¬(2 * 1 + 1 ≤ 0 ∨ 2 * 1 < 0 ∨ 1 < 1)) :=
  ⟨⟨by decide, by decide⟩, ⟨by decide, by decide⟩⟩

/-- **C4 amended**: for every configuration with positive `time_step` (a
non-positive one is itself a ConfigError): `create` fails with a
ConfigError iff `poly_order ≥ window_size` or `target_point > 2n` or
`half_window < 1`; `calc`'s validation agrees whenever `half_window ≤ 127`
(beyond that its `uint8_t` arithmetic compares `poly_order` against
`(2n+1) mod 256`); and for every configuration satisfying all three bounds,
`create` succeeds and returns a filter handle (with the full window size).
-/
theorem config_error_iff_bounds_violated (hw m t d : Nat) (dt : Frac)
    (mode : SavgolBoundaryMode) (hdt : 0 < dt) :
    (hw ≤ 127 →
      (calcValidate hw m t = none ↔ ¬(2 * hw + 1 ≤ m ∨ 2 * hw < t ∨ hw < 1))) ∧
    (savgol_create ⟨hw, m, t, d, dt, mode⟩ = .error .configErr ↔
      (2 * hw + 1 ≤ m ∨ 2 * hw < t ∨ hw < 1)) ∧
    (¬(2 * hw + 1 ≤ m ∨ 2 * hw < t ∨ hw < 1) →
      ∃ f, savgol_create ⟨hw, m, t, d, dt, mode⟩ = .ok f ∧
        f.window_size = 2 * hw + 1) := by
  refine ⟨?_, ?_, ?_⟩
  · intro hhw
    rw [calcValidate_none_iff hw m t hhw]
    omega
  · simp only [savgol_create]
    split
    case isTrue hv =>
      obtain ⟨h1, h2, h3, -⟩ := hv
      split <;> simp <;> omega
    case isFalse hv =>
      simp only [true_iff]
      by_contra hcon
      push_neg at hcon
      exact hv ⟨by omega, by omega, by omega, hdt⟩
  · intro hb
    obtain ⟨ker, hker⟩ := deriveKernel_isSome hw m t d dt (by omega)
    refine ⟨⟨⟨hw, m, t, d, dt, mode⟩, 2 * hw + 1, ker⟩, ?_, rfl⟩
    simp only [savgol_create]
    rw [if_pos ⟨by omega, by omega, by omega, hdt⟩, hker]

/-- Witness for the amended C4 at an in-range configuration: validation
accepts, no ConfigError, and `create` returns a handle with window size 5.
-/
theorem config_error_iff_bounds_witness :
    ((2 ≤ 127) →
      (calcValidate 2 1 0 = none ↔ ¬(2 * 2 + 1 ≤ 1 ∨ 2 * 2 < 0 ∨ 2 < 1))) ∧
    (savgol_create ⟨2, 1, 0, 0, 1, .polynomial⟩ = .error .configErr ↔
      (2 * 2 + 1 ≤ 1 ∨ 2 * 2 < 0 ∨ 2 < 1)) ∧
    (¬(2 * 2 + 1 ≤ 1 ∨ 2 * 2 < 0 ∨ 2 < 1) →
      ∃ f, savgol_create ⟨2, 1, 0, 0, 1, .polynomial⟩ = .ok f ∧
        f.window_size = 2 * 2 + 1) :=
  config_error_iff_bounds_violated 2 1 0 0 1 .polynomial (by decide)

/-- The interior entries of the core `savgol_apply`: the direct convolution
of the kernel with the window centred at the index. -/
theorem savgol_apply_getElem_interior (g : SavgolFilter) (qs : List Frac) (i : Nat)
    (hlo : g.config.half_window ≤ i) (hhi : i + g.config.half_window < qs.length) :
    (savgol_apply g qs)[i]? =
      some (convWindow g.kernel qs (i - g.config.half_window)) := by
  have hi : i < qs.length := by omega
  simp only [savgol_apply, List.getElem?_ofFn, List.ofFnNthVal, hi, dif_pos]
  rw [if_pos ⟨hlo, hhi⟩]

/-- The entries of the core `savgol_apply_valid`: the direct convolution at
offset `j`. -/
theorem savgol_apply_valid_getElem (g : SavgolFilter) (qs : List Frac) (j : Nat)
    (hj : j < qs.length - 2 * g.config.half_window) :
    (savgol_apply_valid g qs)[j]? = some (convWindow g.kernel qs j) := by
  simp only [savgol_apply_valid, List.getElem?_ofFn, List.ofFnNthVal, hj, dif_pos]

/-- **C6**: for every successfully created filter, every boundary mode and
every data with `len ≥ window_size`, the interior outputs of `apply` and
`apply_valid` agree bit-for-bit (`apply(...)[i] = applyValid(...)[i−n]` for
`n ≤ i ≤ len−n−1`), and a filter created from the same configuration under
any other boundary mode yields the same value at every interior index — the
boundary mode influences only the first and last `n` positions of `apply`'s
output. -/
theorem interior_agreement (cfg cfgB : SavgolConfig) (f fB : SavgolFilter)
    (qs : List Frac) (i : Nat) (modeB : SavgolBoundaryMode)
    (hcf : savgol_create cfg = .ok f)
    (hcfB : savgol_create cfgB = .ok fB)
    (hcfgB : cfgB = { cfg with boundary := modeB })
    (hlo : cfg.half_window ≤ i) (hhi : i + cfg.half_window < qs.length) :
    (savgol_apply f qs)[i]? = (savgol_apply_valid f qs)[i - cfg.half_window]? ∧
    (savgol_apply fB qs)[i]? = (savgol_apply f qs)[i]? := by
  obtain ⟨hc1, hw1, hk1, -⟩ := savgol_create_ok_parts hcf
  obtain ⟨hc2, hw2, hk2, -⟩ := savgol_create_ok_parts hcfB
  subst hcfgB
  have hn : f.config.half_window = cfg.half_window := by rw [hc1]
  have hnB : fB.config.half_window = cfg.half_window := by rw [hc2]
  have hker : fB.kernel = f.kernel := by
    have h12 := hk1.symm.trans hk2
    exact (Option.some.inj h12).symm
  constructor
  · rw [savgol_apply_getElem_interior f qs i (by omega) (by omega),
      savgol_apply_valid_getElem f qs (i - cfg.half_window) (by omega), hn]
  · rw [savgol_apply_getElem_interior f qs i (by omega) (by omega),
      savgol_apply_getElem_interior fB qs i (by omega) (by omega), hn, hnB, hker]

/-- Witness for C6: the `cfgW` filter (POLYNOMIAL) against the same
configuration with REFLECT boundary mode, at interior index 1 of
`[1, 2, 3]`. -/
theorem interior_agreement_witness :
    ((savgol_apply filtW [1, 2, 3])[1]? =
      (savgol_apply_valid filtW [1, 2, 3])[1 - cfgW.half_window]?) ∧
    ((savgol_apply filtWr [1, 2, 3])[1]? = (savgol_apply filtW [1, 2, 3])[1]?) :=
  interior_agreement cfgW cfgWr filtW filtWr [1, 2, 3] 1 .reflect
    (by decide) (by decide) (by decide) (by decide) (by decide)

/-- **C9 counterexample**: for the argument list
`(table, 1, 0, 0, 0, table)` — the first argument a table with further
arguments following — `calc` silently skips the leading table (its offset
heuristic fires) and succeeds, while calling the module with the same
argument list raises a bad-argument error: the two entry points do not
return the same pair for every argument list. -/
theorem module_call_differs_from_calc_cex :
    luaSGF_calc_raw [.tbl [.num 1, .num 2, .num 3], .int 1, .int 0, .int 0, .int 0,
        .tbl [.num 1, .num 2, .num 3]] ≠
      luaSGF_module_call [.tbl [.num 1, .num 2, .num 3], .int 1, .int 0, .int 0, .int 0,
        .tbl [.num 1, .num 2, .num 3]] := by
  decide

/-- **C9 amended**: calling the module value as a function is equivalent to
calling `calc` directly for every argument list that does not consist of a
table in first position followed by at least one further argument; on those
remaining lists `calc`'s offset heuristic skips the leading table while the
module call does not, and the outcomes can differ. -/
theorem module_call_eq_calc (args : List LuaArg)
    (h : args.length ≤ 1 ∨ isTableArg (args.get? 0) = false) :
    luaSGF_module_call args = luaSGF_calc_raw args := by
  cases args with
  | nil => rfl
  | cons a rest =>
    cases rest with
    | nil =>
      simp only [luaSGF_module_call, luaSGF_calc_raw]
      rw [if_pos ⟨rfl, by simp⟩, if_neg (by simp)]
      cases a <;> rfl
    | cons b rest2 =>
      have ha : isTableArg (some a) = false := by
        rcases h with h | h
        · simp only [List.length_cons] at h
          omega
        · exact h
      simp only [luaSGF_module_call, luaSGF_calc_raw]
      rw [if_pos ⟨rfl, by simp only [List.length_cons]; omega⟩,
        if_neg (by rw [List.get?_cons_zero]; rintro ⟨h1, -⟩; rw [ha] at h1; cases h1)]
      rfl

/-- Witness for the amended C9: a well-formed call, both entry points
produce the same successful outcome. -/
theorem module_call_eq_calc_witness :
    luaSGF_module_call [.int 1, .int 0, .int 0, .int 0, .tbl [.num 1, .num 2, .num 3]] =
      luaSGF_calc_raw [.int 1, .int 0, .int 0, .int 0, .tbl [.num 1, .num 2, .num 3]] :=
  module_call_eq_calc [.int 1, .int 0, .int 0, .int 0, .tbl [.num 1, .num 2, .num 3]]
    (by decide)

/-- Extraction with the hole check on an all-numbers table. -/
theorem readAll_dense (data : List LuaVal) (h : ∀ v ∈ data, v.isNum = true) :
    readAll data = .ok (data.map LuaVal.toNum) :=
  readAllAux_dense data 1 h

set_option maxRecDepth 4000 in
/-- **C5 counterexample**: two concrete argument lists on which `calc` and
the composite `create → apply → dispose` (boundary POLYNOMIAL, time_step 1)
disagree.  First, on a table with a hole, `calc` succeeds (the nil reads as
`0`) while the composite fails (`apply` reports the hole).  Second, at
`half_window = 128` `calc` rejects the configuration (8-bit truncated
window size) while the composite succeeds on 257 samples. -/
theorem calc_differs_from_composite_cex :
    (luaSGF_calc_checked 1 0 0 0 [.num 1, .nil, .num 1]).toOption ≠
      exceptToOption (compositeCalc 1 0 0 0 [.num 1, .nil, .num 1]) ∧
    (luaSGF_calc_checked 128 1 0 0 (List.replicate 257 (.num 1))).toOption = none ∧
    exceptToOption (compositeCalc 128 1 0 0 (List.replicate 257 (.num 1))) ≠ none := by
  refine ⟨by decide, by decide, ?_⟩
  have hcre : savgol_create cfgBig = .ok filtBig := by rfl
  have hws : filtBig.window_size ≤ (List.replicate 257 (1 : Frac)).length := by
    rw [List.length_replicate]
    decide
  have happ := luaSGF_apply_ok filtBig (List.replicate 257 (1 : Frac)) hws
  rw [List.map_replicate] at happ
  simp only [compositeCalc, luaSGF_savgol_create]
  rw [show (⟨128, 1, 0, 0, 1, .polynomial⟩ : SavgolConfig) = cfgBig from rfl, hcre]
  simp only [happ, exceptToOption]
  intro hcon
  cases hcon

/-- **C5 amended**: for every argument tuple whose (already `uint8_t`-cast)
`half_window` is at most 127 and whose data table contains only numbers,
the legacy `calc` body and the composite
`create (boundary POLYNOMIAL, time_step 1.0) → apply → dispose` agree after
collapsing their different failure reporting (a returned `(nil, message)`
pair versus a raised error): they perform the same validation, the same
length check, and produce the same output sequence. -/
theorem calc_matches_create_apply_dispose (hw m t d : Nat) (data : List LuaVal)
    (hhw : hw ≤ 127) (hdense : ∀ v ∈ data, v.isNum = true) :
    (luaSGF_calc_checked hw m t d data).toOption =
      exceptToOption (compositeCalc hw m t d data) := by
  have hdt : (0 : Frac) < 1 := by decide
  by_cases hval : 1 ≤ hw ∧ m < 2 * hw + 1 ∧ t ≤ 2 * hw
  case neg =>
    obtain ⟨msg, hmsg⟩ : ∃ msg, calcValidate hw m t = some msg := by
      cases hx : calcValidate hw m t with
      | none => exact absurd ((calcValidate_none_iff hw m t hhw).mp hx) hval
      | some msg => exact ⟨msg, rfl⟩
    have hcre : savgol_create ⟨hw, m, t, d, 1, .polynomial⟩ = .error .configErr := by
      simp only [savgol_create]
      rw [if_neg fun hc => hval ⟨hc.1, hc.2.1, hc.2.2.1⟩]
    simp [luaSGF_calc_checked, hmsg, CalcOutcome.toOption, compositeCalc,
      luaSGF_savgol_create, hcre, exceptToOption]
  case pos =>
    have hv : calcValidate hw m t = none := (calcValidate_none_iff hw m t hhw).mpr hval
    by_cases hlen : data.length < 2 * hw + 1
    · cases hk : deriveKernel hw m t d 1 with
      | none =>
        have hcre : savgol_create ⟨hw, m, t, d, 1, .polynomial⟩ = .error .internalErr := by
          simp only [savgol_create]
          rw [if_pos ⟨hval.1, hval.2.1, hval.2.2, hdt⟩, hk]
        simp [luaSGF_calc_checked, hv, hlen, CalcOutcome.toOption, compositeCalc,
          luaSGF_savgol_create, hcre, exceptToOption]
      | some k =>
        have hcre : savgol_create (⟨hw, m, t, d, 1, .polynomial⟩ : SavgolConfig)
            = .ok ⟨⟨hw, m, t, d, 1, .polynomial⟩, 2 * hw + 1, k⟩ := by
          simp only [savgol_create]
          rw [if_pos ⟨hval.1, hval.2.1, hval.2.2, hdt⟩, hk]
        simp [luaSGF_calc_checked, hv, hlen, CalcOutcome.toOption, compositeCalc,
          luaSGF_savgol_create, hcre, luaSGF_savgol_apply, exceptToOption]
    · have hlen' : ¬(data.length < 2 * hw + 1) := hlen
      cases hk : deriveKernel hw m t d 1 with
      | none =>
        have hcre : savgol_create ⟨hw, m, t, d, 1, .polynomial⟩ = .error .internalErr := by
          simp only [savgol_create]
          rw [if_pos ⟨hval.1, hval.2.1, hval.2.2, hdt⟩, hk]
        have hmes : mes_savgolFilter (data.map LuaVal.toNum) hw m t d = none := by
          simp only [mes_savgolFilter, hk, Option.map]
        simp [luaSGF_calc_checked, hv, hlen', hmes, CalcOutcome.toOption, compositeCalc,
          luaSGF_savgol_create, hcre, exceptToOption]
      | some k =>
        have hcre : savgol_create (⟨hw, m, t, d, 1, .polynomial⟩ : SavgolConfig)
            = .ok ⟨⟨hw, m, t, d, 1, .polynomial⟩, 2 * hw + 1, k⟩ := by
          simp only [savgol_create]
          rw [if_pos ⟨hval.1, hval.2.1, hval.2.2, hdt⟩, hk]
        have hmes : mes_savgolFilter (data.map LuaVal.toNum) hw m t d =
            some (savgol_apply ⟨⟨hw, m, t, d, 1, .polynomial⟩, 2 * hw + 1, k⟩
              (data.map LuaVal.toNum)) := by
          simp only [mes_savgolFilter, hk, Option.map]
        have happly : luaSGF_savgol_apply
            (some ⟨⟨hw, m, t, d, 1, .polynomial⟩, 2 * hw + 1, k⟩) data
            = .ok (savgol_apply ⟨⟨hw, m, t, d, 1, .polynomial⟩, 2 * hw + 1, k⟩
              (data.map LuaVal.toNum)) := by
          simp only [luaSGF_savgol_apply]
          rw [if_neg hlen', readAll_dense data hdense]
        simp [luaSGF_calc_checked, hv, hlen', hmes, CalcOutcome.toOption, compositeCalc,
          luaSGF_savgol_create, hcre, happly, exceptToOption]

/-- Witness for the amended C5: a well-formed dense call yields the same
collapsed outcome through both pipelines. -/
theorem calc_matches_create_apply_dispose_witness :
    (luaSGF_calc_checked 1 0 0 0 [.num 1, .num 2, .num 3]).toOption =
      exceptToOption (compositeCalc 1 0 0 0 [.num 1, .num 2, .num 3]) :=
  calc_matches_create_apply_dispose 1 0 0 0 [.num 1, .num 2, .num 3]
    (by decide) (by decide)

/-- If some slot of the table is not a number, `apply`'s extraction loop
fails at the first such slot: with the hole error at its index when it holds
nil, and with the raised `luaL_checknumber` error otherwise. -/
theorem readAllAux_of_firstBadAux (data : List LuaVal) : ∀ i j v,
    firstBadAux i data = some (j, v) →
    readAllAux i data = .error (if v = .nil then .hole j else .typeErr) := by
  induction data with
  | nil =>
    intro i j v h
    cases h
  | cons w rest ih =>
    intro i j v h
    cases w with
    | nil =>
      rw [show firstBadAux i (LuaVal.nil :: rest) = some (i, .nil) from rfl] at h
      cases h
      rfl
    | other =>
      rw [show firstBadAux i (LuaVal.other :: rest) = some (i, .other) from rfl] at h
      cases h
      rfl
    | num q =>
      rw [show firstBadAux i (LuaVal.num q :: rest) = firstBadAux (i + 1) rest from rfl] at h
      rw [show readAllAux i (LuaVal.num q :: rest)
          = (readAllAux (i + 1) rest).map (fun qs => q :: qs) from rfl,
        ih (i + 1) j v h]
      rfl

/-- A table with some non-number slot has a first defective slot. -/
theorem firstBadAux_isSome (data : List LuaVal) : ∀ i,
    data.any (fun v => !v.isNum) = true → (firstBadAux i data).isSome = true := by
  induction data with
  | nil =>
    intro i h
    cases h
  | cons w rest ih =>
    intro i h
    cases w with
    | nil => rfl
    | other => rfl
    | num q =>
      rw [show firstBadAux i (LuaVal.num q :: rest) = firstBadAux (i + 1) rest from rfl]
      apply ih
      simpa [LuaVal.isNum] using h

/-- **C10 counterexample**: on a table whose defective element is non-nil
and non-numeric, `apply` fails with the raised bad-argument error of
`luaL_checknumber`, not with a hole error naming an index — while `calc`
still succeeds.  The claim's description of `apply`'s failure as a hole
error is wrong for such tables. -/
theorem apply_rejects_nonnumeric_without_hole_error_cex :
    luaSGF_savgol_apply (some filtW) [.num 1, .other, .num 1] = .error .typeErr ∧
    LuaErr.isHole .typeErr = false ∧
    (luaSGF_calc_checked 1 0 0 0 [.num 1, .other, .num 1]).toOption.isSome = true :=
  ⟨by decide, by decide, by decide⟩

/-- **C10 amended**: for every data table whose raw length is at least
`window_size` but that contains a nil or non-numeric element within that
length, `calc` (with a configuration its validation accepts, and the
spec-guaranteed solvable kernel) does not report an error — every defective
element is silently read as `0.0` (`lua_tonumber`) and filtering proceeds —
whereas `apply` on the same table fails at the first defective element:
with the hole error naming that (1-based) index when the element is nil,
and with the raised bad-argument error when it is non-nil non-numeric. -/
theorem calc_reads_defects_as_zero_apply_rejects (hw m t d : Nat) (cfg : SavgolConfig)
    (f : SavgolFilter) (data : List LuaVal)
    (hker : (deriveKernel hw m t d 1).isSome = true)
    (hval : calcValidate hw m t = none)
    (hlen : 2 * hw + 1 ≤ data.length)
    (hcf : savgol_create cfg = .ok f)
    (hws : f.window_size ≤ data.length)
    (hbad : data.any (fun v => !v.isNum) = true) :
    (luaSGF_calc_checked hw m t d data).toOption =
      mes_savgolFilter (data.map LuaVal.toNum) hw m t d ∧
    (mes_savgolFilter (data.map LuaVal.toNum) hw m t d).isSome = true ∧
    (firstBad data).isSome = true ∧
    luaSGF_savgol_apply (some f) data =
      .error (match firstBad data with
        | some (j, .nil) => .hole j
        | _ => .typeErr) := by
  obtain ⟨ker, hkeq⟩ : ∃ k, deriveKernel hw m t d 1 = some k :=
    Option.isSome_iff_exists.mp hker
  have hmes : mes_savgolFilter (data.map LuaVal.toNum) hw m t d =
      some (savgol_apply ⟨⟨hw, m, t, d, 1, .polynomial⟩, 2 * hw + 1, ker⟩
        (data.map LuaVal.toNum)) := by
    simp only [mes_savgolFilter, hkeq, Option.map]
  have hlen' : ¬(data.length < 2 * hw + 1) := by omega
  refine ⟨?_, ?_, ?_, ?_⟩
  · simp [luaSGF_calc_checked, hval, hlen', hmes, CalcOutcome.toOption]
  · simp [hmes]
  · exact firstBadAux_isSome data 1 hbad
  · obtain ⟨⟨j, v⟩, hfb⟩ : ∃ p, firstBad data = some p :=
      Option.isSome_iff_exists.mp (firstBadAux_isSome data 1 hbad)
    have hfb' : firstBadAux 1 data = some (j, v) := hfb
    simp only [luaSGF_savgol_apply]
    rw [if_neg (by omega),
      show readAll data = readAllAux 1 data from rfl,
      readAllAux_of_firstBadAux data 1 j v hfb', hfb]
    cases v <;> rfl

/-- Witness for the amended C10: the table `{1, nil, 1}` with the `cfgW`
filter — `calc` succeeds reading the nil as `0`, `apply` reports the hole
at index 2. -/
theorem calc_reads_defects_as_zero_apply_rejects_witness :
    ((luaSGF_calc_checked 1 0 0 0 [.num 1, .nil, .num 1]).toOption =
      mes_savgolFilter ([LuaVal.num 1, .nil, .num 1].map LuaVal.toNum) 1 0 0 0) ∧
    ((mes_savgolFilter ([LuaVal.num 1, .nil, .num 1].map LuaVal.toNum) 1 0 0 0).isSome
      = true) ∧
    ((firstBad [LuaVal.num 1, .nil, .num 1]).isSome = true) ∧
    (luaSGF_savgol_apply (some filtW) [.num 1, .nil, .num 1] =
      .error (match firstBad [LuaVal.num 1, .nil, .num 1] with
        | some (j, .nil) => .hole j
        | _ => .typeErr)) :=
  calc_reads_defects_as_zero_apply_rejects 1 0 0 0 cfgW filtW [.num 1, .nil, .num 1]
    (by decide) (by decide) (by decide) (by decide) (by decide) (by decide)

end LuaSGF
